import Mathlib

/- Verification development for the Smartling / Zendesk translation-transfer
   tool (smartlingzd.py).  The definitions below are a shallow embedding of
   the data model and the operations of the tool; external collaborators
   (Zendesk API, Smartling API, lxml, a few Python library primitives) are
   modelled explicitly and each such model carries a doc comment saying what
   it stands for.  The theorems at the end of the file settle the
   specification claims. -/

set_option maxRecDepth 8192

/-- The three Zendesk item kinds handled by the tool (the constants
TYPE_ARTICLE, TYPE_SECTION, TYPE_CATEGORY in the source). -/
inductive ItemType where
  | article
  | section
  | category
  deriving DecidableEq, Repr

/-- The name string of an item type, as used when building Smartling URIs. -/
def itemTypeName : ItemType → String
  | .article => "article"
  | .section => "section"
  | .category => "category"

/-- Python str.split(sep) for a single-character separator, on the character
list of the string.  Mirrors the semantics used by the source at
uri.split('_') and uri.split('.'): every occurrence of the separator starts
a new field, and the result is always non-empty. -/
def py_split (sep : Char) : List Char → List (List Char)
  | [] => [[]]
  | c :: rest =>
    match py_split sep rest with
    | [] => [[c]]
    | cur :: parts =>
      if c = sep then [] :: cur :: parts else (c :: cur) :: parts

/-- Helper for py_str_nat: accumulate the decimal digits of n, structurally
recursing on a fuel argument (fuel ≥ n makes the result exact). -/
def toDigitsAux : Nat → Nat → List Char → List Char
  | 0, n, acc => Nat.digitChar (n % 10) :: acc
  | fuel + 1, n, acc =>
    if n < 10 then Nat.digitChar n :: acc
    else toDigitsAux fuel (n / 10) (Nat.digitChar (n % 10) :: acc)

/-- Python str(n) for a nonnegative integer: its decimal digit characters. -/
def py_str_nat (n : Nat) : List Char := toDigitsAux n n []

/-- Python int(s) on the character list of a string, for the plain decimal
strings the tool parses out of Smartling URIs: all characters must be
decimal digits (anything else raises ValueError, modelled as none). -/
def py_int_of_chars (cs : List Char) : Option Nat :=
  if cs.isEmpty then none
  else if cs.all Char.isDigit then
    some (cs.foldl (fun a c => 10 * a + (c.toNat - 48)) 0)
  else none

/-- get_source_item_file_name from the source:
item_type + '_' + str(item_id) + '.json'. -/
def get_source_item_file_name (t : ItemType) (i : Nat) : String :=
  itemTypeName t ++ "_" ++ String.mk (py_str_nat i) ++ ".json"

/-- The URI parse performed inside get_completed_ids:
id = uri.split('_')[1].split('.')[0]; int(id).  Python raises IndexError or
ValueError when the shape is wrong; both are modelled as none. -/
def completed_id_of_uri (uri : String) : Option Nat :=
  match (py_split '_' uri.data)[1]? with
  | none => none
  | some seg =>
    match (py_split '.' seg)[0]? with
    | none => none
    | some idpart => py_int_of_chars idpart

/-- Python str.startswith(pre), on character lists. -/
def py_startswith (s pre : List Char) : Bool := pre.isPrefixOf s

/-- Python str.endswith(suf), on character lists. -/
def py_endswith (s suf : List Char) : Bool := suf.isSuffixOf s

/-- The characters Python str.strip removes. -/
def py_isspace (c : Char) : Bool :=
  c = ' ' || c = '\t' || c = '\n' || c = '\x0d' || c = '\x0b' || c = '\x0c'

/-- Python str.strip(): drop whitespace from both ends. -/
def py_strip (cs : List Char) : List Char :=
  ((cs.dropWhile py_isspace).reverse.dropWhile py_isspace).reverse

/-- Python str.lower() for the ASCII locale codes and tags the tool uses. -/
def py_lower_chars (cs : List Char) : List Char := cs.map Char.toLower

/-- Python str.lower() on strings. -/
def py_lower (s : String) : String := String.mk (py_lower_chars s.data)

/-- A Zendesk article attachment: the pair of fields fix_image_link reads
(attachment['file_name'], attachment['content_url']). -/
structure Attachment where
  file_name : String
  content_url : String
  deriving DecidableEq, Repr

/-- Modelled from the spec: Python urlsplit(url).path for the URL shapes the
tool processes.  If a "://" occurs, the scheme and authority before the
first following '/' are dropped; the path then ends at the first '?' or '#'.
The source only reads the final path segment of image URLs. -/
def drop_through_scheme : List Char → Option (List Char)
  | ':' :: '/' :: '/' :: rest => some rest
  | _ :: rest => drop_through_scheme rest
  | [] => none

/-- Modelled from the spec: the path component of urlsplit(url); see
drop_through_scheme. -/
def url_path_chars (cs : List Char) : List Char :=
  let after :=
    match drop_through_scheme cs with
    | some rest => rest.dropWhile (fun c => c != '/')
    | none => cs
  after.takeWhile (fun c => c != '?' && c != '#')

/-- The image file name extracted in fix_image_link:
urlsplit(url).path.split('/')[-1]. -/
def image_file_name_of (url : String) : String :=
  String.mk ((py_split '/' (url_path_chars url.data)).getLastD [])

/-- The regex substitution in fix_image_link:
re.sub(pattern _en-us\.(...) , '_' + locale + '.\1', name).  Python re scans
left to right, replaces every non-overlapping match, and resumes after each
match; the group (...) is three characters, each any character except a
newline. -/
def subst_en_us (loc : List Char) : List Char → List Char
  | '_' :: 'e' :: 'n' :: '-' :: 'u' :: 's' :: '.' :: a :: b :: c :: rest =>
    if a == '\n' || b == '\n' || c == '\n' then
      '_' :: subst_en_us loc ('e' :: 'n' :: '-' :: 'u' :: 's' :: '.' :: a :: b :: c :: rest)
    else
      ('_' :: loc) ++ '.' :: a :: b :: c :: subst_en_us loc rest
  | c :: rest => c :: subst_en_us loc rest
  | [] => []

/-- The locale-substituted image file name of fix_image_link, on strings. -/
def substituteLocaleToken (locale name : String) : String :=
  String.mk (subst_en_us locale.data name.data)

/-- The literal token the regex of fix_image_link looks for: "_en-us.". -/
def en_us_token : List Char := ['_', 'e', 'n', '-', 'u', 's', '.']

/-- The first match of the regex _en-us\.(...) in a character list, scanning
left to right exactly like subst_en_us: the result is the prefix before the
match, the three captured (non-newline) characters, and the remainder after
the match.  none means the regex matches nowhere in the string. -/
def first_en_us_match : List Char → Option (List Char × (Char × Char × Char) × List Char)
  | '_' :: 'e' :: 'n' :: '-' :: 'u' :: 's' :: '.' :: a :: b :: c :: rest =>
    if a == '\n' || b == '\n' || c == '\n' then
      (first_en_us_match ('e' :: 'n' :: '-' :: 'u' :: 's' :: '.' :: a :: b :: c :: rest)).map
        (fun r => ('_' :: r.1, r.2))
    else some ([], (a, b, c), rest)
  | c :: rest => (first_en_us_match rest).map (fun r => (c :: r.1, r.2))
  | [] => none

/-- fix_image_link from the source: derive the localised image name from the
last path segment of the url, then scan the article attachments and point
src at the content_url of any attachment whose file_name equals it (the
loop has no break, so a later match overwrites an earlier one).  The result
is the final src value paired with the found flag; found = false means the
src is unchanged and a warning is logged (never an error). -/
def fix_image_link (src url locale : String) (article_attachments : List Attachment) :
    String × Bool :=
  let new_image_file_name := substituteLocaleToken locale (image_file_name_of url)
  article_attachments.foldl
    (fun acc attachment =>
      if attachment.file_name = new_image_file_name then (attachment.content_url, true)
      else acc)
    (src, false)

/-- Outcome of the Zendesk attachments lookup inside fix_article_links:
either the attachment list, or a ZendeskError with a status code. -/
inductive AttachmentsOutcome where
  | ok (atts : List Attachment)
  | err (code : Nat)
  deriving DecidableEq, Repr

/-- Modelled from the spec: the composite
lxml.html.tostring(iterlinks-processed lxml.html.fromstring(body)) step
inside fix_article_links, restricted to the bodies the theorems evaluate it
at: fragments with no markup at all (no '<' occurs).  Such a fragment holds
no links, so its text is serialized back unchanged, wrapped in the
synthetic div that parsing adds — the spec (and a source comment) record
that lxml adds a surrounding div when none is present. -/
def lxml_parse_fix_serialize (body : String) : String :=
  if body.data.contains '<' then body else "<div>" ++ body ++ "</div>"

/-- Python slicing s[5:-6], used to strip a '<div>' prefix and '</div>'
suffix from the serialized body. -/
def py_slice_5_m6 (s : String) : String :=
  String.mk ((s.data.drop 5).take ((s.data.drop 5).length - 6))

/-- fix_article_links from the source.  The attachments call is the input
outcome: a 404 skips link fixing and returns the body unchanged, any other
error propagates.  Otherwise the body is parsed, links are fixed and the
result serialized (lxml_parse_fix_serialize); the original body decides
surrounding_div_in_orig via body.strip().lower().startswith('<div'), and
the final conditional — exactly as written in the source — tests
body.startswith('<div>') and body.endswith('</div>') on the ORIGINAL body
before slicing off a wrapper. -/
def fix_article_links (article_id : Nat) (body : String) (locale : String)
    (attachments_call : AttachmentsOutcome) : Except Nat String :=
  match attachments_call with
  | .err code => if code = 404 then .ok body else .error code
  | .ok _atts =>
    let surrounding_div_in_orig :=
      py_startswith (py_lower_chars (py_strip body.data)) ("<div".data)
    let fixed_body := lxml_parse_fix_serialize body
    if surrounding_div_in_orig = false
        && py_startswith body.data ("<div>".data)
        && py_endswith body.data ("</div>".data) then
      .ok (py_slice_5_m6 fixed_body)
    else
      .ok fixed_body

/-- The translated document downloaded from Smartling: the source item JSON
with the translatable fields carrying translated text.  Articles use id,
title, body, draft; sections and categories use id, name, description. -/
structure TranslationDoc where
  id : Nat
  title : String
  body : String
  draft : Bool
  name : String
  description : String
  deriving DecidableEq, Repr

/-- The record built by construct_article_translation:
{locale, title, body, draft}. -/
structure ArticleTranslation where
  locale : String
  title : String
  body : String
  draft : Bool
  deriving DecidableEq, Repr

/-- The record built by construct_section_translation:
{locale, name, description}. -/
structure SectionTranslation where
  locale : String
  name : String
  description : String
  deriving DecidableEq, Repr

/-- The record built by construct_category_translation:
{locale, name, description}. -/
structure CategoryTranslation where
  locale : String
  name : String
  description : String
  deriving DecidableEq, Repr

/-- construct_article_translation from the source: locale, title, the body
passed through fix_article_links, and draft.  An error from the attachments
lookup inside fix_article_links propagates. -/
def construct_article_translation (item_id : Nat) (translation_data : TranslationDoc)
    (zd_locale : String) (attachments_call : AttachmentsOutcome) :
    Except Nat ArticleTranslation :=
  match fix_article_links item_id translation_data.body zd_locale attachments_call with
  | .error c => .error c
  | .ok fixed =>
    .ok { locale := zd_locale, title := translation_data.title, body := fixed,
          draft := translation_data.draft }

/-- construct_section_translation from the source (its declared two-argument
form): {locale, name, description}. -/
def construct_section_translation (translation_data : TranslationDoc)
    (zd_locale : String) : SectionTranslation :=
  { locale := zd_locale, name := translation_data.name,
    description := translation_data.description }

/-- construct_category_translation from the source (its declared two-argument
form): {locale, name, description}. -/
def construct_category_translation (translation_data : TranslationDoc)
    (zd_locale : String) : CategoryTranslation :=
  { locale := zd_locale, name := translation_data.name,
    description := translation_data.description }

/-- Outcome of one Zendesk API call: success, or a ZendeskError carrying its
status code (404 is the "not found" condition). -/
inductive ZdCallOutcome where
  | ok
  | err (code : Nat)
  deriving DecidableEq, Repr

/-- How one upsert of a translation into Zendesk ends. -/
inductive UpsertResult where
  | updated
  | created
  | skippedGone
  | zendeskError (code : Nat)
  deriving DecidableEq, Repr

/-- The shared control flow of upload_article_translation_to_zendesk,
upload_section_translation_to_zendesk and
upload_category_translation_to_zendesk, parameterised by the outcomes of
the three Zendesk calls.  The source wraps the show AND the update call in
one try: a 404 raised by either falls into the create fallback; a 404 from
the create is swallowed (source item gone); any other error re-raises. -/
def upload_translation_to_zendesk (show_r update_r create_r : ZdCallOutcome) : UpsertResult :=
  let try_block : ZdCallOutcome :=
    match show_r with
    | .ok => update_r
    | .err c => .err c
  match try_block with
  | .ok => .updated
  | .err c =>
    if c = 404 then
      match create_r with
      | .ok => .created
      | .err c2 => if c2 = 404 then .skippedGone else .zendeskError c2
    else .zendeskError c

/-- upload_article_translation_to_zendesk (source lines 229-262). -/
def upload_article_translation_to_zendesk : ZdCallOutcome → ZdCallOutcome → ZdCallOutcome → UpsertResult :=
  upload_translation_to_zendesk

/-- upload_section_translation_to_zendesk (source lines 265-295). -/
def upload_section_translation_to_zendesk : ZdCallOutcome → ZdCallOutcome → ZdCallOutcome → UpsertResult :=
  upload_translation_to_zendesk

/-- upload_category_translation_to_zendesk (source lines 298-329). -/
def upload_category_translation_to_zendesk : ZdCallOutcome → ZdCallOutcome → ZdCallOutcome → UpsertResult :=
  upload_translation_to_zendesk

/-- The per-item-type upsert operation. -/
def upload_translation_for : ItemType → ZdCallOutcome → ZdCallOutcome → ZdCallOutcome → UpsertResult
  | .article => upload_article_translation_to_zendesk
  | .section => upload_section_translation_to_zendesk
  | .category => upload_category_translation_to_zendesk

/-- Modelled from the spec: the Zendesk backing store the upsert runs
against — the stored translations keyed by (item id, locale), plus the set
of ids of source items that still exist (create returns 404 when the source
item is gone). -/
structure ZdStore where
  translations : List ((Nat × String) × ArticleTranslation)
  sourceIds : List Nat
  deriving DecidableEq, Repr

/-- Modelled from the spec: help_center_article_translation_show — 404 when
no translation is stored for (id, locale). -/
def zd_show_translation (st : ZdStore) (id : Nat) (locale : String) : ZdCallOutcome :=
  match st.translations.find? (fun e => e.1 == (id, locale)) with
  | some _ => .ok
  | none => .err 404

/-- Modelled from the spec: help_center_article_translation_update —
replaces the stored record at (id, locale), 404 when absent. -/
def zd_update_translation (st : ZdStore) (id : Nat) (locale : String)
    (rec : ArticleTranslation) : ZdCallOutcome × ZdStore :=
  match st.translations.find? (fun e => e.1 == (id, locale)) with
  | some _ =>
    (.ok, { st with translations :=
      st.translations.map (fun e => if e.1 == (id, locale) then ((id, locale), rec) else e) })
  | none => (.err 404, st)

/-- Modelled from the spec: help_center_article_translation_create — the
locale comes from the record itself; 404 when the source item is gone, an
error when a translation for that locale already exists. -/
def zd_create_translation (st : ZdStore) (id : Nat) (rec : ArticleTranslation) :
    ZdCallOutcome × ZdStore :=
  if st.sourceIds.contains id then
    match st.translations.find? (fun e => e.1 == (id, rec.locale)) with
    | some _ => (.err 422, st)
    | none => (.ok, { st with translations := st.translations ++ [((id, rec.locale), rec)] })
  else (.err 404, st)

/-- The create fallback branch of the upsert, against the modelled store. -/
def upsert_create_path (st : ZdStore) (id : Nat) (rec : ArticleTranslation) :
    UpsertResult × ZdStore :=
  match zd_create_translation st id rec with
  | (.ok, st1) => (.created, st1)
  | (.err c, st1) => if c = 404 then (.skippedGone, st1) else (.zendeskError c, st1)

/-- upsertTranslation: upload_article_translation_to_zendesk run against the
modelled Zendesk backing store, with the same try show+update / except-404
create / except-404 swallow control flow as the source. -/
def upsertTranslation (st : ZdStore) (id : Nat) (locale : String)
    (rec : ArticleTranslation) : UpsertResult × ZdStore :=
  match zd_show_translation st id locale with
  | .ok =>
    match zd_update_translation st id locale rec with
    | (.ok, st1) => (.updated, st1)
    | (.err c, st1) => if c = 404 then upsert_create_path st1 id rec else (.zendeskError c, st1)
  | .err c =>
    if c = 404 then upsert_create_path st id rec else (.zendeskError c, st)

/-- get_smartling_locale from the source: membership is checked on the given
code, the lookup then reads locale_mapping[zd_locale.lower()]; a miss of
the membership check raises ValueError (modelled as none), and so would a
KeyError of the lowered lookup. -/
def get_smartling_locale (mapping : List (String × String)) (zd_locale : String) :
    Option String :=
  if (mapping.map Prod.fst).contains zd_locale then
    (mapping.find? (fun p => p.1 == py_lower zd_locale)).map Prod.snd
  else none

/-- get_zendesk_locale from the source: linear scan for the first entry
whose value equals the Smartling locale; ValueError (none) when no entry
matches. -/
def get_zendesk_locale (mapping : List (String × String)) (sl_locale : String) :
    Option String :=
  (mapping.find? (fun p => p.2 == sl_locale)).map Prod.fst

/-- The reply of one Smartling get call: the HTTP status code and, on 200,
the parsed JSON document.  Modelled from the spec: a missing translation
("no content") arrives as a 200 whose body parses to null, which is exactly
the None the source tests for. -/
structure SlGetResponse where
  code : Nat
  doc : Option TranslationDoc
  deriving DecidableEq, Repr

/-- download_translation_from_smartling_json from the source: on HTTP 200
return the parsed JSON, otherwise raise SmartlingError with the status
code. -/
def download_translation_from_smartling_json (resp : SlGetResponse) :
    Except Nat (Option TranslationDoc) :=
  if resp.code = 200 then .ok resp.doc else .error resp.code

/-- How one transfer_translation_from_smartling run ends: a logged no-op
when there is no translation, an upsert call carrying the constructed
record, or a raised Python exception. -/
inductive TransferResult where
  | noTranslation
  | upsertedArticle (id : Nat) (zd_locale : String) (rec : ArticleTranslation)
  | upsertedSection (id : Nat) (zd_locale : String) (rec : SectionTranslation)
  | upsertedCategory (id : Nat) (zd_locale : String) (rec : CategoryTranslation)
  | smartlingError (code : Nat)
  | zendeskError (code : Nat)
  | typeErrorRaised
  | valueErrorRaised
  deriving DecidableEq, Repr

/-- transfer_translation_from_smartling from the source: download the
translation for the deterministic URI; a None document is a logged no-op;
otherwise map the Smartling locale back to the Zendesk locale and build and
upsert the item-type record.  For articles the source passes zd_locale to
construct_article_translation; for sections and categories the source calls
construct_section_translation(translation_data) and
construct_category_translation(translation_data) with the declared
zd_locale argument missing, which Python answers with an immediate
TypeError. -/
def transfer_translation_from_smartling (mapping : List (String × String))
    (item_type : ItemType) (item_id : Nat) (sl_locale : String)
    (get_reply : SlGetResponse) (attachments_call : AttachmentsOutcome) : TransferResult :=
  let _uri := get_source_item_file_name item_type item_id
  match download_translation_from_smartling_json get_reply with
  | .error c => .smartlingError c
  | .ok none => .noTranslation
  | .ok (some translation_data) =>
    match get_zendesk_locale mapping sl_locale with
    | none => .valueErrorRaised
    | some zd_locale =>
      match item_type with
      | .article =>
        match construct_article_translation item_id translation_data zd_locale attachments_call with
        | .error c => .zendeskError c
        | .ok rec => .upsertedArticle item_id zd_locale rec
      | .section => .typeErrorRaised
      | .category => .typeErrorRaised

/-- A Zendesk article as seen by the listing filter: its id and draft flag. -/
structure Article where
  id : Nat
  draft : Bool
  deriving DecidableEq, Repr

/-- The per-article keep decision of the TYPE_ARTICLE branch of
get_all_source_items_from_zendesk: drafts are skipped unless an include
list was supplied; with a non-empty include list an article is kept exactly
when its id is included and not excluded; otherwise exactly when its id is
not excluded. -/
def keep_article (include_articles exclude_articles : List Nat) (item : Article) : Bool :=
  let include_draft : Bool := include_articles.length != 0
  if !include_draft && item.draft then false
  else if include_articles.length > 0 then
    include_articles.contains item.id && !(exclude_articles.contains item.id)
  else !(exclude_articles.contains item.id)

/-- The TYPE_ARTICLE branch of get_all_source_items_from_zendesk: the full
article listing filtered by keep_article, order preserved. -/
def get_all_source_items_from_zendesk (full_list : List Article)
    (include_articles exclude_articles : List Nat) : List Article :=
  full_list.filter (keep_article include_articles exclude_articles)


/-- C1: for every item type, the upsert probes existence via show and, when
the probe (and the update it guards) succeeds, updates; a 404 from the
probe falls back to create; a 404 from that create ends the upsert as a
silent no-op with no state change; any other failure status from probe,
update or create propagates as a fatal error. -/
theorem upload_translation_upsert_control_flow :
    (∀ t create_r, upload_translation_for t .ok .ok create_r = .updated) ∧
    (∀ t update_r, upload_translation_for t (.err 404) update_r .ok = .created) ∧
    (∀ t update_r, upload_translation_for t (.err 404) update_r (.err 404) = .skippedGone) ∧
    (∀ t update_r create_r c, c ≠ 404 →
      upload_translation_for t (.err c) update_r create_r = .zendeskError c) ∧
    (∀ t create_r c, c ≠ 404 →
      upload_translation_for t .ok (.err c) create_r = .zendeskError c) ∧
    (∀ t update_r c, c ≠ 404 →
      upload_translation_for t (.err 404) update_r (.err c) = .zendeskError c) ∧
    (∀ (st : ZdStore) (id : Nat) (locale : String) (rec : ArticleTranslation),
      st.translations.find? (fun e => e.1 == (id, locale)) = none →
      st.sourceIds.contains id = false →
      upsertTranslation st id locale rec = (.skippedGone, st)) := by
  refine ⟨?_, ?_, ?_, ?_, ?_, ?_, ?_⟩
  · intro t create_r; cases t <;> rfl
  · intro t update_r; cases t <;> rfl
  · intro t update_r; cases t <;> rfl
  · intro t update_r create_r c hc
    cases t <;>
      simp [upload_translation_for, upload_article_translation_to_zendesk,
        upload_section_translation_to_zendesk, upload_category_translation_to_zendesk,
        upload_translation_to_zendesk, hc]
  · intro t create_r c hc
    cases t <;>
      simp [upload_translation_for, upload_article_translation_to_zendesk,
        upload_section_translation_to_zendesk, upload_category_translation_to_zendesk,
        upload_translation_to_zendesk, hc]
  · intro t update_r c hc
    cases t <;>
      simp [upload_translation_for, upload_article_translation_to_zendesk,
        upload_section_translation_to_zendesk, upload_category_translation_to_zendesk,
        upload_translation_to_zendesk, hc]
  · intro st id locale rec h1 h2
    have h2m : id ∉ st.sourceIds := by simpa using h2
    simp [upsertTranslation, zd_show_translation, h1, upsert_create_path,
      zd_create_translation, h2m]

/-- Witness for C1: the control-flow theorem applied at concrete call
outcomes and at a concrete empty store whose source item is gone. -/
theorem upload_translation_upsert_control_flow_apply :
    upload_translation_for .article (.err 500) .ok .ok = .zendeskError 500 ∧
    upload_translation_for .section .ok (.err 403) .ok = .zendeskError 403 ∧
    upload_translation_for .category (.err 404) .ok (.err 500) = .zendeskError 500 ∧
    upsertTranslation ⟨[], []⟩ 1 "fr" ⟨"fr", "t", "b", false⟩ = (.skippedGone, ⟨[], []⟩) :=
  ⟨upload_translation_upsert_control_flow.2.2.2.1 .article .ok .ok 500 (by decide),
   upload_translation_upsert_control_flow.2.2.2.2.1 .section .ok 403 (by decide),
   upload_translation_upsert_control_flow.2.2.2.2.2.1 .category .ok 500 (by decide),
   upload_translation_upsert_control_flow.2.2.2.2.2.2 ⟨[], []⟩ 1 "fr" ⟨"fr", "t", "b", false⟩
     rfl rfl⟩

/-- C2: the claim fails on the code, and the code contradicts its own
comment ("Remove the surround div that lxml added"): the strip guard tests
body.startswith('<div>') on the ORIGINAL body, which is necessarily false
whenever surrounding_div_in_orig is false, so the synthetic wrapper is
never stripped.  On the plain fragment "hello" (trimmed text does not open
with a container tag; attachment lookup succeeds) the returned body is
"<div>hello</div>", which does open with one. -/
theorem fix_article_links_wrapper_not_stripped :
    py_startswith (py_lower_chars (py_strip "hello".data)) ("<div".data) = false ∧
    fix_article_links 1 "hello" "fr" (.ok []) = .ok "<div>hello</div>" ∧
    py_startswith ("<div>hello</div>".data) ("<div".data) = true :=
  ⟨by decide, rfl, by decide⟩

/-- C3: the claim is right about the intended record — the declared
construct_section_translation and construct_category_translation build
exactly {locale, name, description} — but the code is wrong at their call
sites: transfer_translation_from_smartling invokes both with the zd_locale
argument missing, so every section or category pull with a downloaded
translation raises TypeError instead of upserting. -/
theorem transfer_section_category_type_error :
    transfer_translation_from_smartling [("fr", "fr-FR")] .section 7 "fr-FR"
      ⟨200, some ⟨7, "t", "b", false, "nom", "desc"⟩⟩ (.ok []) = .typeErrorRaised ∧
    transfer_translation_from_smartling [("fr", "fr-FR")] .category 7 "fr-FR"
      ⟨200, some ⟨7, "t", "b", false, "nom", "desc"⟩⟩ (.ok []) = .typeErrorRaised ∧
    (∀ d zd, construct_section_translation d zd =
      { locale := zd, name := d.name, description := d.description }) ∧
    (∀ d zd, construct_category_translation d zd =
      { locale := zd, name := d.name, description := d.description }) :=
  ⟨rfl, rfl, fun _ _ => rfl, fun _ _ => rfl⟩

/-- C5: a "no content" reply from Smartling (HTTP 200 whose document parses
to None) makes the pull a logged no-op for every item type, id and locale:
no error is raised and no upsert call is issued. -/
theorem transfer_no_content_noop (mapping : List (String × String)) (t : ItemType)
    (id : Nat) (sl_locale : String) (attachments_call : AttachmentsOutcome) :
    transfer_translation_from_smartling mapping t id sl_locale ⟨200, none⟩ attachments_call =
      .noTranslation := rfl

/-- C9: relocalizing the image logo_en-us.png for locale fr with an
attachment list holding {fileName: logo_fr.png, contentUrl: https://x/2}
sets src to https://x/2; with no logo_fr.png entry the src stays unchanged
and only the warning flag is false — no error is raised. -/
theorem fix_image_link_concrete_scenarios :
    fix_image_link "logo_en-us.png" "logo_en-us.png" "fr"
      [{ file_name := "logo_fr.png", content_url := "https://x/2" }] = ("https://x/2", true) ∧
    fix_image_link "logo_en-us.png" "logo_en-us.png" "fr"
      [{ file_name := "logo_de.png", content_url := "https://x/9" }] =
      ("logo_en-us.png", false) :=
  ⟨by decide, rfl⟩

/-- C6: in the article listing of the outbound pipeline, a draft article is
excluded when the include filter is empty; with a non-empty include filter
an article whose id is included and not excluded is kept regardless of its
draft flag; and an article whose id is excluded is never kept. -/
theorem article_listing_filter_semantics (full_list : List Article)
    (incl excl : List Nat) (a : Article) :
    (incl = [] → a.draft = true →
      a ∉ get_all_source_items_from_zendesk full_list incl excl) ∧
    (incl ≠ [] → a.id ∈ incl → a.id ∉ excl → a ∈ full_list →
      a ∈ get_all_source_items_from_zendesk full_list incl excl) ∧
    (a.id ∈ excl → a ∉ get_all_source_items_from_zendesk full_list incl excl) := by
  refine ⟨?_, ?_, ?_⟩
  · intro h hd hmem
    rw [get_all_source_items_from_zendesk, List.mem_filter] at hmem
    subst h
    simp [keep_article, hd] at hmem
  · intro h hi he hmem
    rw [get_all_source_items_from_zendesk, List.mem_filter]
    refine ⟨hmem, ?_⟩
    have h0 : 0 < incl.length := List.length_pos.mpr h
    simp [keep_article, Nat.pos_iff_ne_zero.mp h0, h0, hi, he]
  · intro he hmem
    rw [get_all_source_items_from_zendesk, List.mem_filter] at hmem
    have hk := hmem.2
    rw [keep_article] at hk
    rcases Nat.eq_zero_or_pos incl.length with hz | hp
    · simp [hz, he] at hk
    · simp [Nat.pos_iff_ne_zero.mp hp, hp, he] at hk

/-- Witness for C6: the filter theorem applied to concrete listings — a
draft article with empty include filter is dropped, the same article is
kept once its id is on a non-empty include filter, and an excluded id is
dropped. -/
theorem article_listing_filter_semantics_apply :
    (⟨1, true⟩ : Article) ∉ get_all_source_items_from_zendesk [⟨1, true⟩] [] [] ∧
    (⟨1, true⟩ : Article) ∈ get_all_source_items_from_zendesk [⟨1, true⟩] [1] [] ∧
    (⟨2, false⟩ : Article) ∉ get_all_source_items_from_zendesk [⟨2, false⟩] [] [2] :=
  ⟨(article_listing_filter_semantics [⟨1, true⟩] [] [] ⟨1, true⟩).1 rfl rfl,
   (article_listing_filter_semantics [⟨1, true⟩] [1] [] ⟨1, true⟩).2.1 (by decide)
     (by decide) (by decide) (by decide),
   (article_listing_filter_semantics [⟨2, false⟩] [] [2] ⟨2, false⟩).2.2 (by decide)⟩

/-- C8: upserting twice with identical arguments against a fresh backing
store (no stored translations, source item present) leaves the store with
exactly one record for (id, locale), equal to the record after one call;
the second call takes the show-then-update path and rewrites the same
record in place. -/
theorem upsertTranslation_idempotent (st : ZdStore) (id : Nat) (locale : String)
    (rec : ArticleTranslation) (hfresh : st.translations = [])
    (hsrc : id ∈ st.sourceIds) (hloc : rec.locale = locale) :
    (upsertTranslation st id locale rec).2.translations = [((id, locale), rec)] ∧
    (upsertTranslation (upsertTranslation st id locale rec).2 id locale rec).2 =
      (upsertTranslation st id locale rec).2 := by
  obtain ⟨tr, ids⟩ := st
  simp only at hfresh hsrc
  subst hfresh
  subst hloc
  constructor
  · simp [upsertTranslation, zd_show_translation, upsert_create_path,
      zd_create_translation, hsrc]
  · simp [upsertTranslation, zd_show_translation, upsert_create_path,
      zd_create_translation, zd_update_translation, hsrc]

/-- Witness for C8: the idempotence theorem at a concrete store and record. -/
theorem upsertTranslation_idempotent_apply :
    (upsertTranslation ⟨[], [1]⟩ 1 "fr" ⟨"fr", "t", "b", false⟩).2.translations =
      [((1, "fr"), ⟨"fr", "t", "b", false⟩)] ∧
    (upsertTranslation (upsertTranslation ⟨[], [1]⟩ 1 "fr" ⟨"fr", "t", "b", false⟩).2
        1 "fr" ⟨"fr", "t", "b", false⟩).2 =
      (upsertTranslation ⟨[], [1]⟩ 1 "fr" ⟨"fr", "t", "b", false⟩).2 :=
  upsertTranslation_idempotent ⟨[], [1]⟩ 1 "fr" ⟨"fr", "t", "b", false⟩ rfl
    (by decide) rfl

/-- Helper: on a mapping whose keys are distinct (a Python dict), the linear
key scan finds exactly the entry of a present key. -/
theorem find_by_key_nodup (m : List (String × String)) (zd v : String)
    (hk : (m.map Prod.fst).Nodup) (hmem : (zd, v) ∈ m) :
    m.find? (fun p => p.1 == zd) = some (zd, v) := by
  induction m with
  | nil => simp at hmem
  | cons hd tl ih =>
    obtain ⟨a, b⟩ := hd
    rw [List.map_cons, List.nodup_cons] at hk
    rcases List.mem_cons.mp hmem with heq | htl
    · injection heq with h1 h2
      subst h1; subst h2
      rw [List.find?_cons_of_pos _ (by simp)]
    · have hzd : zd ∈ tl.map Prod.fst := List.mem_map.mpr ⟨(zd, v), htl, rfl⟩
      have hne : a ≠ zd := fun h => hk.1 (h ▸ hzd)
      rw [List.find?_cons_of_neg _ (by simp [hne])]
      exact ih hk.2 htl

/-- Helper: when no two entries share a value, the linear value scan of
get_zendesk_locale finds exactly the entry carrying a present value. -/
theorem find_by_val_nodup (m : List (String × String)) (zd v : String)
    (hv : (m.map Prod.snd).Nodup) (hmem : (zd, v) ∈ m) :
    m.find? (fun p => p.2 == v) = some (zd, v) := by
  induction m with
  | nil => simp at hmem
  | cons hd tl ih =>
    obtain ⟨a, b⟩ := hd
    rw [List.map_cons, List.nodup_cons] at hv
    rcases List.mem_cons.mp hmem with heq | htl
    · injection heq with h1 h2
      subst h1; subst h2
      rw [List.find?_cons_of_pos _ (by simp)]
    · have hzv : v ∈ tl.map Prod.snd := List.mem_map.mpr ⟨(zd, v), htl, rfl⟩
      have hne : b ≠ v := fun h => hv.1 (h ▸ hzv)
      rw [List.find?_cons_of_neg _ (by simp [hne])]
      exact ih hv.2 htl

/-- C7 fails as stated: in the mapping [("aa","xx"), ("bb","xx")] the key
"bb" is present, maps forward to "xx", and the inverse linear scan then
returns the FIRST entry whose value is "xx" — "aa", not "bb". -/
theorem locale_roundtrip_counterexample :
    ("bb", "xx") ∈ ([("aa", "xx"), ("bb", "xx")] : List (String × String)) ∧
    ((get_smartling_locale [("aa", "xx"), ("bb", "xx")] "bb").bind
      (get_zendesk_locale [("aa", "xx"), ("bb", "xx")])) ≠ some "bb" :=
  ⟨by decide, by decide⟩

/-- C7 (amended): for every source locale code that is a key of the locale
mapping, PROVIDED no two entries of the mapping share the same
translation-system locale value, the forward lookup followed by the inverse
linear scan returns the original code.  (Keys are distinct because the
mapping is a Python dict, and lowercase as loaded by SafeConfigParser,
which the hypothesis on py_lower records.) -/
theorem locale_roundtrip_amended (m : List (String × String)) (zd v : String)
    (hk : (m.map Prod.fst).Nodup) (hv : (m.map Prod.snd).Nodup)
    (hmem : (zd, v) ∈ m) (hlow : py_lower zd = zd) :
    (get_smartling_locale m zd).bind (get_zendesk_locale m) = some zd := by
  have hc : zd ∈ m.map Prod.fst := List.mem_map.mpr ⟨(zd, v), hmem, rfl⟩
  rw [get_smartling_locale, if_pos (by simpa using hc), hlow,
    find_by_key_nodup m zd v hk hmem]
  simp [get_zendesk_locale, find_by_val_nodup m zd v hv hmem]

/-- Witness for C7 (amended): the round trip at a concrete duplicate-free
mapping. -/
theorem locale_roundtrip_amended_apply :
    (get_smartling_locale [("aa", "xx")] "aa").bind (get_zendesk_locale [("aa", "xx")]) =
      some "aa" :=
  locale_roundtrip_amended [("aa", "xx")] "aa" "xx" (by decide) (by decide) (by decide)
    (by decide)

/-- Helper: whenever the regex scan finds a match (prefix, three captured
characters, remainder), the substitution of fix_image_link rewrites exactly
that match: the prefix is kept, the token _en-us is replaced by the target
locale after the underscore, the dot and the three captured characters are
kept, and the remainder is processed the same way. -/
theorem subst_en_us_first_match (loc : List Char) :
    ∀ cs pre g1 g2 g3 suf, first_en_us_match cs = some (pre, (g1, g2, g3), suf) →
    subst_en_us loc cs = pre ++ ('_' :: loc) ++ '.' :: g1 :: g2 :: g3 :: subst_en_us loc suf := by
  intro cs
  induction cs using subst_en_us.induct loc with
  | case1 a b c rest hnl ih =>
    intro pre g1 g2 g3 suf h
    rw [first_en_us_match, if_pos hnl] at h
    rcases Option.map_eq_some'.mp h with ⟨r, hr, hmap⟩
    obtain ⟨rpre, ⟨ra, rb, rc⟩, rsuf⟩ := r
    have h1 : '_' :: rpre = pre := congrArg Prod.fst hmap
    have h2 : ((ra, rb, rc), rsuf) = ((g1, g2, g3), suf) := congrArg Prod.snd hmap
    injection h2 with h2a h2b
    injection h2a with e1 h2c
    injection h2c with e2 e3
    subst e1; subst e2; subst e3; subst h2b
    rw [subst_en_us, if_pos hnl, ih rpre ra rb rc rsuf hr, ← h1]
    simp
  | case2 a b c rest hnl ih =>
    intro pre g1 g2 g3 suf h
    rw [first_en_us_match, if_neg hnl] at h
    injection h with h'
    injection h' with h1 h2
    injection h2 with h2a h2b
    injection h2a with e1 h2c
    injection h2c with e2 e3
    subst h1; subst e1; subst e2; subst e3; subst h2b
    rw [subst_en_us, if_neg hnl]
    simp
  | case3 c rest hne ih =>
    intro pre g1 g2 g3 suf h
    rw [first_en_us_match] at h
    · rcases Option.map_eq_some'.mp h with ⟨r, hr, hmap⟩
      obtain ⟨rpre, ⟨ra, rb, rc⟩, rsuf⟩ := r
      have h1 : c :: rpre = pre := congrArg Prod.fst hmap
      have h2 : ((ra, rb, rc), rsuf) = ((g1, g2, g3), suf) := congrArg Prod.snd hmap
      injection h2 with h2a h2b
      injection h2a with e1 h2c
      injection h2c with e2 e3
      subst e1; subst e2; subst e3; subst h2b
      rw [subst_en_us]
      · rw [ih rpre ra rb rc rsuf hr, ← h1]
        simp
      · exact hne
    · exact hne
  | case4 =>
    intro pre g1 g2 g3 suf h
    exact absurd h (by simp [first_en_us_match])

/-- Helper: a file name in which the regex matches nowhere is left unchanged
by the substitution of fix_image_link. -/
theorem subst_en_us_no_match (loc : List Char) :
    ∀ cs, first_en_us_match cs = none → subst_en_us loc cs = cs := by
  intro cs
  induction cs using subst_en_us.induct loc with
  | case1 a b c rest hnl ih =>
    intro h
    rw [first_en_us_match, if_pos hnl, Option.map_eq_none'] at h
    rw [subst_en_us, if_pos hnl, ih h]
  | case2 a b c rest hnl ih =>
    intro h
    rw [first_en_us_match, if_neg hnl] at h
    exact absurd h (by simp)
  | case3 c rest hne ih =>
    intro h
    rw [first_en_us_match] at h
    · rw [Option.map_eq_none'] at h
      rw [subst_en_us]
      · rw [ih h]
      · exact hne
    · exact hne
  | case4 => intro h; rfl

/-- Helper: every match found by the regex scan is a genuine occurrence of
the literal token _en-us. followed by three non-newline characters. -/
theorem first_en_us_match_decomp :
    ∀ cs pre g1 g2 g3 suf, first_en_us_match cs = some (pre, (g1, g2, g3), suf) →
    cs = pre ++ en_us_token ++ g1 :: g2 :: g3 :: suf ∧
      g1 ≠ '\n' ∧ g2 ≠ '\n' ∧ g3 ≠ '\n' := by
  intro cs
  induction cs using first_en_us_match.induct with
  | case1 a b c rest hnl ih =>
    intro pre g1 g2 g3 suf h
    rw [first_en_us_match, if_pos hnl] at h
    rcases Option.map_eq_some'.mp h with ⟨r, hr, hmap⟩
    obtain ⟨rpre, ⟨ra, rb, rc⟩, rsuf⟩ := r
    have h1 : '_' :: rpre = pre := congrArg Prod.fst hmap
    have h2 : ((ra, rb, rc), rsuf) = ((g1, g2, g3), suf) := congrArg Prod.snd hmap
    injection h2 with h2a h2b
    injection h2a with e1 h2c
    injection h2c with e2 e3
    subst e1; subst e2; subst e3; subst h2b
    obtain ⟨hshape, hn1, hn2, hn3⟩ := ih rpre ra rb rc rsuf hr
    refine ⟨?_, hn1, hn2, hn3⟩
    rw [← h1]
    exact congrArg (List.cons '_') hshape
  | case2 a b c rest hnl =>
    intro pre g1 g2 g3 suf h
    rw [first_en_us_match, if_neg hnl] at h
    injection h with h'
    injection h' with h1 h2
    injection h2 with h2a h2b
    injection h2a with e1 h2c
    injection h2c with e2 e3
    subst h1; subst e1; subst e2; subst e3; subst h2b
    simp only [Bool.or_eq_true, beq_iff_eq] at hnl
    push_neg at hnl
    exact ⟨by simp [en_us_token], hnl.1.1, hnl.1.2, hnl.2⟩
  | case3 c rest hne ih =>
    intro pre g1 g2 g3 suf h
    rw [first_en_us_match] at h
    · rcases Option.map_eq_some'.mp h with ⟨r, hr, hmap⟩
      obtain ⟨rpre, ⟨ra, rb, rc⟩, rsuf⟩ := r
      have h1 : c :: rpre = pre := congrArg Prod.fst hmap
      have h2 : ((ra, rb, rc), rsuf) = ((g1, g2, g3), suf) := congrArg Prod.snd hmap
      injection h2 with h2a h2b
      injection h2a with e1 h2c
      injection h2c with e2 e3
      subst e1; subst e2; subst e3; subst h2b
      obtain ⟨hshape, hn1, hn2, hn3⟩ := ih rpre ra rb rc rsuf hr
      refine ⟨?_, hn1, hn2, hn3⟩
      rw [← h1]
      exact congrArg (List.cons c) hshape
    · exact hne
  | case4 =>
    intro pre g1 g2 g3 suf h
    exact absurd h (by simp [first_en_us_match])

/-- Helper: when the regex scan finds no match, no occurrence of the token
_en-us. followed by three non-newline characters exists in the string. -/
theorem first_en_us_match_none_decomp :
    ∀ cs, first_en_us_match cs = none →
    ∀ pre g1 g2 g3 suf, cs = pre ++ en_us_token ++ g1 :: g2 :: g3 :: suf →
    g1 = '\n' ∨ g2 = '\n' ∨ g3 = '\n' := by
  intro cs
  induction cs using first_en_us_match.induct with
  | case1 a b c rest hnl ih =>
    intro h pre g1 g2 g3 suf heq
    rw [first_en_us_match, if_pos hnl, Option.map_eq_none'] at h
    cases pre with
    | nil =>
      simp only [List.nil_append, en_us_token, List.cons_append, List.cons.injEq] at heq
      obtain ⟨-, -, -, -, -, -, -, e1, e2, e3, -⟩ := heq
      subst e1; subst e2; subst e3
      simpa [or_assoc] using hnl
    | cons p0 pre' =>
      injection heq with hp htail
      exact ih h pre' g1 g2 g3 suf htail
  | case2 a b c rest hnl =>
    intro h pre g1 g2 g3 suf heq
    rw [first_en_us_match, if_neg hnl] at h
    exact absurd h (by simp)
  | case3 c rest hne ih =>
    intro h pre g1 g2 g3 suf heq
    rw [first_en_us_match] at h
    · rw [Option.map_eq_none'] at h
      cases pre with
      | nil =>
        simp only [List.nil_append, en_us_token, List.cons_append, List.cons.injEq] at heq
        exact (hne g1 g2 g3 suf heq.1 heq.2).elim
      | cons p0 pre' =>
        injection heq with hp htail
        exact ih h pre' g1 g2 g3 suf htail
    · exact hne
  | case4 =>
    intro h pre g1 g2 g3 suf heq
    exact absurd heq (by simp [en_us_token])

/-- C10 fails as stated: the regex _en-us\.(...) also fires before an
extension longer than three characters, matching its first three
characters, so logo_en-us.jpeg is rewritten (to logo_fr.jpeg), not left
unchanged. -/
theorem substitute_locale_token_counterexample :
    substituteLocaleToken "fr" "logo_en-us.jpeg" ≠ "logo_en-us.jpeg" := by decide

/-- C10 (amended): for EVERY file name, the substitution of fix_image_link
rewrites it exactly when the literal token _en-us appears immediately
before a '.' followed by at least three non-newline characters.  Clause 1:
whenever the scan finds a match, the token is replaced by the target locale
and the captured characters and processed remainder are kept.  Clause 2:
every found match is a genuine occurrence of _en-us. with three non-newline
characters after it (so clause 1 covers exactly the claimed rewrites, e.g.
logo_en-us.jpeg becomes logo_fr.jpeg).  Clause 3: conversely every such
occurrence makes the scan find a match.  Clause 4: a file name with no
match — one lacking the token, or whose token is followed by fewer than
three characters, like a_en-us.gz — is unchanged, so the src can then only
change if an attachment carries the original file name.  Final clause: when
more than one attachment matches, the src is set to the content URL of the
LAST match in the attachment list. -/
theorem fix_image_link_substitution_amended :
    (∀ (loc name pre : List Char) (g1 g2 g3 : Char) (suf : List Char),
      first_en_us_match name = some (pre, (g1, g2, g3), suf) →
      subst_en_us loc name = pre ++ ('_' :: loc) ++ '.' :: g1 :: g2 :: g3 :: subst_en_us loc suf) ∧
    (∀ (name pre : List Char) (g1 g2 g3 : Char) (suf : List Char),
      first_en_us_match name = some (pre, (g1, g2, g3), suf) →
      name = pre ++ en_us_token ++ g1 :: g2 :: g3 :: suf ∧
        g1 ≠ '\n' ∧ g2 ≠ '\n' ∧ g3 ≠ '\n') ∧
    (∀ (name pre : List Char) (g1 g2 g3 : Char) (suf : List Char),
      name = pre ++ en_us_token ++ g1 :: g2 :: g3 :: suf →
      g1 ≠ '\n' → g2 ≠ '\n' → g3 ≠ '\n' → first_en_us_match name ≠ none) ∧
    (∀ (loc name : List Char), first_en_us_match name = none → subst_en_us loc name = name) ∧
    substituteLocaleToken "fr" "logo_en-us.jpeg" = "logo_fr.jpeg" ∧
    substituteLocaleToken "fr" "a_en-us.gz" = "a_en-us.gz" ∧
    (∀ (src url locale : String) (atts : List Attachment) (att : Attachment),
      att.file_name = substituteLocaleToken locale (image_file_name_of url) →
      fix_image_link src url locale (atts ++ [att]) = (att.content_url, true)) := by
  refine ⟨subst_en_us_first_match, first_en_us_match_decomp, ?_, subst_en_us_no_match,
    by decide, by decide, ?_⟩
  · intro name pre g1 g2 g3 suf heq h1 h2 h3 hnone
    rcases first_en_us_match_none_decomp name hnone pre g1 g2 g3 suf heq with e | e | e
    exacts [h1 e, h2 e, h3 e]
  · intro src url locale atts att hmatch
    rw [fix_image_link, List.foldl_append]
    simp [hmatch]

/-- Witness for C10 (amended): the universal clauses applied at concrete
file names — the rewrite clause and the occurrence clauses at
logo_en-us.jpeg, the unchanged clause at a_en-us.gz, and the last-match
rule at a concrete attachment list. -/
theorem fix_image_link_substitution_amended_apply :
    subst_en_us ("fr".data) ("logo_en-us.jpeg".data) =
      "logo".data ++ ('_' :: "fr".data) ++ '.' :: 'j' :: 'p' :: 'e' ::
        subst_en_us ("fr".data) ['g'] ∧
    ("logo_en-us.jpeg".data = "logo".data ++ en_us_token ++ 'j' :: 'p' :: 'e' :: ['g'] ∧
      'j' ≠ '\n' ∧ 'p' ≠ '\n' ∧ 'e' ≠ '\n') ∧
    first_en_us_match ("logo_en-us.jpeg".data) ≠ none ∧
    subst_en_us ("fr".data) ("a_en-us.gz".data) = "a_en-us.gz".data ∧
    fix_image_link "s" "logo_en-us.png" "fr" ([] ++ [⟨"logo_fr.png", "u"⟩]) = ("u", true) :=
  ⟨fix_image_link_substitution_amended.1 "fr".data "logo_en-us.jpeg".data "logo".data
      'j' 'p' 'e' ['g'] (by decide),
   fix_image_link_substitution_amended.2.1 "logo_en-us.jpeg".data "logo".data
      'j' 'p' 'e' ['g'] (by decide),
   fix_image_link_substitution_amended.2.2.1 "logo_en-us.jpeg".data "logo".data
      'j' 'p' 'e' ['g'] (by decide) (by decide) (by decide) (by decide),
   fix_image_link_substitution_amended.2.2.2.1 "fr".data "a_en-us.gz".data (by decide),
   fix_image_link_substitution_amended.2.2.2.2.2.2 "s" "logo_en-us.png" "fr" []
      ⟨"logo_fr.png", "u"⟩ (by decide)⟩

/-- Helper: the digit accumulator of py_str_nat is insensitive to the exact
fuel as long as it is at least n. -/
theorem toDigitsAux_fuel : ∀ f1 f2 n acc, n ≤ f1 → n ≤ f2 →
    toDigitsAux f1 n acc = toDigitsAux f2 n acc := by
  intro f1
  induction f1 with
  | zero =>
    intro f2 n acc h1 h2
    have hz : n = 0 := Nat.le_zero.mp h1
    subst hz
    cases f2 with
    | zero => rfl
    | succ g => simp [toDigitsAux]
  | succ g1 ih =>
    intro f2 n acc h1 h2
    cases f2 with
    | zero =>
      have hz : n = 0 := Nat.le_zero.mp h2
      subst hz
      simp [toDigitsAux]
    | succ g2 =>
      by_cases hn : n < 10
      · simp [toDigitsAux, hn]
      · simp only [toDigitsAux, hn, if_false]
        exact ih g2 (n / 10) _ (by omega) (by omega)

/-- Helper: the accumulator of toDigitsAux is simply appended. -/
theorem toDigitsAux_acc : ∀ fuel n acc,
    toDigitsAux fuel n acc = toDigitsAux fuel n [] ++ acc := by
  intro fuel
  induction fuel with
  | zero => intro n acc; simp [toDigitsAux]
  | succ g ih =>
    intro n acc
    by_cases hn : n < 10
    · simp [toDigitsAux, hn]
    · simp only [toDigitsAux, hn, if_false]
      rw [ih (n / 10) (Nat.digitChar (n % 10) :: acc), ih (n / 10) [Nat.digitChar (n % 10)]]
      simp

/-- Helper: a single-digit number prints as its digit character. -/
theorem py_str_nat_lt (n : Nat) (h : n < 10) : py_str_nat n = [Nat.digitChar n] := by
  cases n with
  | zero => rfl
  | succ m => simp [py_str_nat, toDigitsAux, h]

/-- Helper: the decimal recurrence of py_str_nat. -/
theorem py_str_nat_ge (n : Nat) (h : 10 ≤ n) :
    py_str_nat n = py_str_nat (n / 10) ++ [Nat.digitChar (n % 10)] := by
  cases n with
  | zero => omega
  | succ m =>
    have hlt : ¬ (m + 1 < 10) := by omega
    rw [py_str_nat]
    rw [show toDigitsAux (m + 1) (m + 1) [] =
        toDigitsAux m ((m + 1) / 10) [Nat.digitChar ((m + 1) % 10)] by
      simp [toDigitsAux, hlt]]
    rw [toDigitsAux_fuel m ((m + 1) / 10) ((m + 1) / 10) _ (by omega) (Nat.le_refl _)]
    rw [toDigitsAux_acc ((m + 1) / 10) ((m + 1) / 10) [Nat.digitChar ((m + 1) % 10)]]
    rfl

/-- Helper: digit characters of values below ten are decimal digits. -/
theorem digitChar_isDigit (k : Nat) (h : k < 10) : (Nat.digitChar k).isDigit = true := by
  interval_cases k <;> decide

/-- Helper: the numeric value of a digit character below ten. -/
theorem digitChar_toNat (k : Nat) (h : k < 10) : (Nat.digitChar k).toNat - 48 = k := by
  interval_cases k <;> decide

/-- Helper: every character printed by py_str_nat is a decimal digit. -/
theorem py_str_nat_all_digit (n : Nat) : ∀ c ∈ py_str_nat n, c.isDigit = true := by
  induction n using Nat.strong_induction_on with
  | _ n ih =>
    by_cases hn : n < 10
    · rw [py_str_nat_lt n hn]
      intro c hc
      simp at hc
      subst hc
      exact digitChar_isDigit n hn
    · push_neg at hn
      rw [py_str_nat_ge n hn]
      intro c hc
      rcases List.mem_append.mp hc with h1 | h2
      · exact ih (n / 10) (by omega) c h1
      · simp at h2
        subst h2
        exact digitChar_isDigit (n % 10) (by omega)

/-- Helper: py_str_nat never prints an empty string. -/
theorem py_str_nat_ne_nil (n : Nat) : py_str_nat n ≠ [] := by
  by_cases hn : n < 10
  · rw [py_str_nat_lt n hn]; simp
  · push_neg at hn; rw [py_str_nat_ge n hn]; simp

/-- Helper: non-digit characters never occur in py_str_nat. -/
theorem not_mem_py_str_nat (n : Nat) (c : Char) (hc : c.isDigit = false) :
    c ∉ py_str_nat n :=
  fun h => absurd (py_str_nat_all_digit n c h) (by simp [hc])

/-- Helper: folding the base-ten accumulation over the digits of n recovers
n below the shifted seed. -/
theorem py_str_nat_foldl (n : Nat) : ∀ a : Nat,
    (py_str_nat n).foldl (fun x c => 10 * x + (c.toNat - 48)) a =
      a * 10 ^ (py_str_nat n).length + n := by
  induction n using Nat.strong_induction_on with
  | _ n ih =>
    intro a
    by_cases hn : n < 10
    · rw [py_str_nat_lt n hn]
      simp [List.foldl]
      rw [digitChar_toNat n hn]
      omega
    · push_neg at hn
      rw [py_str_nat_ge n hn, List.foldl_append]
      rw [ih (n / 10) (by omega) a]
      simp [List.foldl]
      rw [digitChar_toNat (n % 10) (by omega)]
      rw [pow_succ, ← mul_assoc]
      generalize a * 10 ^ (py_str_nat (n / 10)).length = M
      omega

/-- Helper: Python int inverts Python str on nonnegative integers. -/
theorem py_int_of_py_str (n : Nat) : py_int_of_chars (py_str_nat n) = some n := by
  have hne : (py_str_nat n).isEmpty = false := by
    rcases h : py_str_nat n with _ | ⟨c, rest⟩
    · exact absurd h (py_str_nat_ne_nil n)
    · rfl
  have hall : (py_str_nat n).all Char.isDigit = true := by
    rw [List.all_eq_true]
    exact py_str_nat_all_digit n
  rw [py_int_of_chars, hne, hall]
  simp
  rw [py_str_nat_foldl n 0]
  simp

/-- Helper: py_split never returns an empty list of fields. -/
theorem py_split_ne_nil (sep : Char) : ∀ cs, py_split sep cs ≠ [] := by
  intro cs
  cases cs with
  | nil => simp [py_split]
  | cons c rest =>
    rw [py_split]
    cases hr : py_split sep rest with
    | nil => simp
    | cons cur parts => by_cases hc : c = sep <;> simp [hc]

/-- Helper: splitting a separator-free string yields one field. -/
theorem py_split_no_sep (sep : Char) : ∀ cs, sep ∉ cs → py_split sep cs = [cs] := by
  intro cs
  induction cs with
  | nil => intro h; rfl
  | cons c rest ih =>
    intro h
    have hc : ¬ c = sep := fun e => h (by rw [← e]; exact List.mem_cons_self c rest)
    have h' : sep ∉ rest := fun hm => h (List.mem_cons_of_mem c hm)
    rw [py_split, ih h']
    simp [hc]

/-- Helper: splitting at the first separator after a separator-free prefix
peels off that prefix as the first field. -/
theorem py_split_append_sep (sep : Char) : ∀ a b, sep ∉ a →
    py_split sep (a ++ sep :: b) = a :: py_split sep b := by
  intro a
  induction a with
  | nil =>
    intro b h
    rw [List.nil_append, py_split]
    cases hr : py_split sep b with
    | nil => exact absurd hr (py_split_ne_nil sep b)
    | cons cur parts => simp
  | cons x a' ih =>
    intro b h
    have hx : ¬ x = sep := fun e => h (by rw [← e]; exact List.mem_cons_self x a')
    have h' : sep ∉ a' := fun hm => h (List.mem_cons_of_mem x hm)
    rw [List.cons_append, py_split, ih b h']
    simp [hx]

/-- Helper: the characters of a generated Smartling URI. -/
theorem uri_data (t : ItemType) (i : Nat) :
    (get_source_item_file_name t i).data =
      (itemTypeName t).data ++ '_' :: (py_str_nat i ++ '.' :: ['j', 's', 'o', 'n']) := by
  have h1 : ("_" : String).data = ['_'] := rfl
  have h2 : (".json" : String).data = '.' :: ['j', 's', 'o', 'n'] := rfl
  rw [get_source_item_file_name]
  rw [String.data_append, String.data_append, String.data_append, h1, h2]
  simp

/-- Helper: splitting a generated URI at underscores yields exactly the type
name and the id-with-extension segment. -/
theorem uri_split (t : ItemType) (i : Nat) :
    py_split '_' (get_source_item_file_name t i).data =
      [(itemTypeName t).data, py_str_nat i ++ '.' :: ['j', 's', 'o', 'n']] := by
  have hname : '_' ∉ (itemTypeName t).data := by cases t <;> decide
  have hrest : '_' ∉ py_str_nat i ++ '.' :: ['j', 's', 'o', 'n'] := by
    intro hm
    rcases List.mem_append.mp hm with h1 | h2
    · exact not_mem_py_str_nat i '_' (by decide) h1
    · revert h2; decide
  rw [uri_data, py_split_append_sep '_' _ _ hname, py_split_no_sep '_' _ hrest]

/-- Helper: the completion scanner parse recovers the id of every generated
URI. -/
theorem completed_id_roundtrip (t : ItemType) (i : Nat) :
    completed_id_of_uri (get_source_item_file_name t i) = some i := by
  have hdot : '.' ∉ py_str_nat i := not_mem_py_str_nat i '.' (by decide)
  rw [completed_id_of_uri, uri_split]
  simp only [List.getElem?_cons_succ, List.getElem?_cons_zero]
  rw [py_split_append_sep '.' (py_str_nat i) ['j', 's', 'o', 'n'] hdot]
  simp only [List.getElem?_cons_zero]
  exact py_int_of_py_str i

/-- Helper: the first underscore field of a generated URI is the type name. -/
theorem uri_split_head (t : ItemType) (i : Nat) :
    (py_split '_' (get_source_item_file_name t i).data)[0]? =
      some (itemTypeName t).data := by
  rw [uri_split]
  rfl

/-- C4: for every item type and id, the completion scanner parse (the
segment between the type prefix and the .json suffix, read as an integer)
recovers the id from the generated URI exactly, and URI generation is
injective — no two distinct (itemType, itemId) pairs collide. -/
theorem uri_roundtrip_injective :
    (∀ t i, completed_id_of_uri (get_source_item_file_name t i) = some i) ∧
    (∀ t t' i i', get_source_item_file_name t i = get_source_item_file_name t' i' →
      t = t' ∧ i = i') := by
  refine ⟨completed_id_roundtrip, ?_⟩
  intro t t' i i' h
  constructor
  · have hh := congrArg (fun s => (py_split '_' s.data)[0]?) h
    simp only at hh
    rw [uri_split_head t i, uri_split_head t' i'] at hh
    injection hh with hh
    cases t <;> cases t' <;> first | rfl | exact absurd hh (by decide)
  · have hh := congrArg completed_id_of_uri h
    rw [completed_id_roundtrip t i, completed_id_roundtrip t' i'] at hh
    injection hh

/-- Witness for C4: the round trip at article 5, and injectivity applied to
the reflexive equality of that URI. -/
theorem uri_roundtrip_injective_apply :
    completed_id_of_uri (get_source_item_file_name .article 5) = some 5 ∧
    (ItemType.article = ItemType.article ∧ 5 = 5) :=
  ⟨uri_roundtrip_injective.1 .article 5,
   uri_roundtrip_injective.2 .article .article 5 5 rfl⟩
